import Mathlib

/-!
Shallow embedding of the sk-sb-quiz session engine
(`src/routes/+page.svelte`), covering the Option Builder
(`buildOptionsForQuestion`, `getGlobalDistractorPool`, `shuffleArray`),
the Session Controller (`startSession`, `handleAnswerClick`,
`nextQuestion`, `prepareCurrentQuestion`) and the auto-advance timer
(`clearAutoAdvanceTimer`, `scheduleAutoAdvance`, modelled together with
the environment set of outstanding timeouts).

Randomness: `Math.floor(Math.random() * (i + 1))` produces an arbitrary
value in `[0, i]`; every run of the program corresponds to some function
`rand : Nat → Nat`, and the model reduces `rand i` modulo `i + 1` so that
each mathematical `rand` denotes a valid random source.
-/

namespace SkSbQuiz

/-- A question record as in the `Question` type of the source; `idx`
models the `__index` field (original index in `allQuestions`, assigned at
load time), and `dummyAnswers` is the optional array of pre-authored
distractors. -/
structure Question where
  domain : String
  lesson : String
  question : String
  correctAnswer : String
  dummyAnswers : Option (List String)
  idx : Option Nat
deriving DecidableEq, Repr

/-- A multiple-choice option as in the `Option` type of the source. -/
structure QOption where
  text : String
  correct : Bool
deriving DecidableEq, Repr

/-- The `status` state variable: `"idle" | "correct" | "incorrect"`. -/
inductive Status where
  | idle
  | correct
  | incorrect
deriving DecidableEq, Repr

/-- One destructuring swap `[a[i], a[j]] = [a[j], a[i]]` on a list; out
of range indices leave the list unchanged (inside `shuffleArray` both
indices are always in range). -/
def swapList {α : Type} (a : List α) (i j : Nat) : List α :=
  match a.get? i, a.get? j with
  | some x, some y => (a.set i y).set j x
  | some _, none => a
  | none, _ => a

/-- The Fisher–Yates loop of `shuffleArray`: `for (let i = a.length - 1;
i > 0; i--)` with `j = Math.floor(Math.random() * (i + 1))`. -/
def shuffleGo {α : Type} (rand : Nat → Nat) : Nat → List α → List α
  | 0, a => a
  | i + 1, a => shuffleGo rand i (swapList a (i + 1) (rand (i + 1) % (i + 2)))

/-- The `shuffleArray` helper: copies the array and runs the
Fisher–Yates downward loop. -/
def shuffleArray {α : Type} (rand : Nat → Nat) (arr : List α) : List α :=
  shuffleGo rand (arr.length - 1) arr

/-- The `getGlobalDistractorPool` helper: correct answers of every
question whose position differs from `excludeIndex`; empty when
`excludeIndex` is `undefined`.  (The `typeof q.correctAnswer ===
"string"` guard of the source is always true in the typed model.) -/
def getGlobalDistractorPool (allQuestions : List Question)
    (excludeIndex : Option Nat) : List String :=
  match excludeIndex with
  | none => []
  | some e =>
      (allQuestions.enum.filter (fun p => decide (p.1 ≠ e))).map
        (fun p => p.2.correctAnswer)

/-- One iteration of the `perQ.forEach` loop of
`buildOptionsForQuestion`: push `t` as an incorrect option unless its
text was already seen.  (The `typeof t === "string"` guard is always
true in the typed model.) -/
def addDummy (acc : List QOption × List String) (t : String) :
    List QOption × List String :=
  if t ∈ acc.2 then acc
  else (acc.1 ++ [{ text := t, correct := false }], acc.2 ++ [t])

/-- The `buildOptionsForQuestion` function: the correct answer first,
then the not-yet-seen dummy answers in order, then up to
`4 - options.length` entries of the shuffled seen-filtered global
distractor pool, and a final shuffle of the whole option list.  `r1`
drives the pool shuffle and `r2` the final shuffle. -/
def buildOptionsForQuestion (r1 r2 : Nat → Nat) (allQuestions : List Question)
    (q : Question) : List QOption :=
  let correctText := q.correctAnswer
  let acc := (q.dummyAnswers.getD []).foldl addDummy
    ([{ text := correctText, correct := true }], [correctText])
  let needed := 4 - acc.1.length
  let pool := shuffleArray r1
    ((getGlobalDistractorPool allQuestions q.idx).filter
      (fun t => decide (t ∉ acc.2)))
  shuffleArray r2
    (acc.1 ++ (pool.take needed).map (fun t => { text := t, correct := false }))

/-- The component state: every top-level `let` of the script that the
session logic reads or writes, together with an environment model of the
outstanding `window.setTimeout` handles (`pendingTimeouts`, fed by a
fresh-id counter `nextTimeoutId`), which the source manipulates through
`window.setTimeout` / `clearTimeout`. -/
structure QuizState where
  allQuestions : List Question
  domains : List String
  selectedDomains : List String
  minQuestions : Nat
  sessionQuestions : List Question
  sessionStarted : Bool
  currentIndex : Nat
  currentOptions : List QOption
  status : Status
  statusMessage : String
  autoAdvanceTimeout : Option Nat
  error : Option String
  pendingTimeouts : List Nat
  nextTimeoutId : Nat
deriving Repr

attribute [ext] QuizState

/-- The `clearAutoAdvanceTimer` helper: `clearTimeout` on the stored
handle (removing it from the set of outstanding timeouts) and null the
slot. -/
def clearAutoAdvanceTimer (s : QuizState) : QuizState :=
  match s.autoAdvanceTimeout with
  | some id =>
      { s with autoAdvanceTimeout := none,
               pendingTimeouts := s.pendingTimeouts.erase id }
  | none => s

/-- The `scheduleAutoAdvance` helper: clear any existing timer, then
`window.setTimeout` a fresh handle and store it. -/
def scheduleAutoAdvance (s : QuizState) : QuizState :=
  let s := clearAutoAdvanceTimer s
  { s with autoAdvanceTimeout := some s.nextTimeoutId,
           pendingTimeouts := s.pendingTimeouts ++ [s.nextTimeoutId],
           nextTimeoutId := s.nextTimeoutId + 1 }

/-- The `prepareCurrentQuestion` helper: rebuild `currentOptions` for
the question at `currentIndex` and reset the answer status.  The index
is always in range at every call site (the session invariant); the out
of range case is modelled as an empty option list. -/
def prepareCurrentQuestion (r1 r2 : Nat → Nat) (s : QuizState) : QuizState :=
  match s.sessionQuestions.get? s.currentIndex with
  | some q =>
      { s with currentOptions := buildOptionsForQuestion r1 r2 s.allQuestions q,
               status := Status.idle, statusMessage := "" }
  | none =>
      { s with currentOptions := [], status := Status.idle, statusMessage := "" }

/-- The domain list actually used by `startSession`: the selection, or
all domains when the user has unchecked everything. -/
def activeDomainsOf (s : QuizState) : List String :=
  if s.selectedDomains.isEmpty then s.domains else s.selectedDomains

/-- The `candidates` list of `startSession`: questions whose domain
(defaulted to `"General"` when falsy) is among the active domains. -/
def sessionCandidates (s : QuizState) : List Question :=
  s.allQuestions.filter
    (fun q => decide ((if q.domain = "" then "General" else q.domain)
      ∈ activeDomainsOf s))

/-- The `startSession` function: guard on an empty store, clear any
pending timer, resolve the domain fallback, filter, report
`NoCandidates` as an error message when the filter is empty, otherwise
shuffle, truncate to `minQuestions` when longer, and enter the session
at index 0.  `r1` drives the candidate shuffle, `r2`/`r3` the option
shuffles of `prepareCurrentQuestion`. -/
def startSession (r1 r2 r3 : Nat → Nat) (s : QuizState) : QuizState :=
  if s.allQuestions.length = 0 then s
  else
    let s0 := clearAutoAdvanceTimer s
    let s1 := if s0.selectedDomains.isEmpty
      then { s0 with selectedDomains := s0.domains } else s0
    let candidates := sessionCandidates s0
    if candidates.isEmpty then
      { s1 with error := some "No questions found for the selected domains." }
    else
      let shuffled := shuffleArray r1 candidates
      let trimmed := if shuffled.length > s1.minQuestions
        then shuffled.take s1.minQuestions else shuffled
      prepareCurrentQuestion r2 r3
        { s1 with sessionQuestions := trimmed, currentIndex := 0,
                  sessionStarted := true }

/-- The `handleAnswerClick` function: no-op unless `status` is idle;
clear any pending auto-advance; on a correct option set the correct
status and schedule the auto-advance; on an incorrect option set the
incorrect status and append the current question reference to the end of
the queue unless an entry strictly after the current position is already
that reference.  The current index is always in range at every reachable
call (the session invariant); the out of range case is modelled as
leaving the queue unchanged. -/
def handleAnswerClick (opt : QOption) (s : QuizState) : QuizState :=
  if s.status ≠ Status.idle then s
  else
    let s0 := clearAutoAdvanceTimer s
    if opt.correct then
      scheduleAutoAdvance
        { s0 with status := Status.correct, statusMessage := "Correct!" }
    else
      let s1 := { s0 with status := Status.incorrect,
                          statusMessage := "Incorrect." }
      match s1.sessionQuestions.get? s1.currentIndex with
      | some cur =>
          if cur ∈ s1.sessionQuestions.drop (s1.currentIndex + 1) then s1
          else { s1 with sessionQuestions := s1.sessionQuestions ++ [cur] }
      | none => s1

/-- The `nextQuestion` function: no-op unless a session is started;
clear any pending timer; advance the cursor and rebuild options when not
at the last index, otherwise end the session. -/
def nextQuestion (r1 r2 : Nat → Nat) (s : QuizState) : QuizState :=
  if s.sessionStarted = false then s
  else
    let s0 := clearAutoAdvanceTimer s
    if s0.currentIndex < s0.sessionQuestions.length - 1 then
      prepareCurrentQuestion r1 r2 { s0 with currentIndex := s0.currentIndex + 1 }
    else
      { s0 with status := Status.idle, statusMessage := "",
                sessionStarted := false }

/-- Environment step: an outstanding `setTimeout` handle fires.  The
scheduler removes the handle from the outstanding set and runs the
callback, which is always `nextQuestion(true)`; a handle that was
cleared (not outstanding) never fires. -/
def fireTimeout (id : Nat) (r1 r2 : Nat → Nat) (s : QuizState) : QuizState :=
  if id ∈ s.pendingTimeouts then
    nextQuestion r1 r2 { s with pendingTimeouts := s.pendingTimeouts.erase id }
  else s

/-- Single-slot timer discipline: the set of outstanding auto-advance
timeouts is exactly the content of the `autoAdvanceTimeout` slot. -/
def timerInv (s : QuizState) : Prop :=
  s.pendingTimeouts = s.autoAdvanceTimeout.toList

instance (s : QuizState) : Decidable (timerInv s) := by
  unfold timerInv; infer_instance

/-- Session invariant of the spec: while a session is active the cursor
is a valid index into the queue. -/
def sessionInv (s : QuizState) : Prop :=
  s.sessionStarted = true → s.currentIndex < s.sessionQuestions.length

instance (s : QuizState) : Decidable (sessionInv s) := by
  unfold sessionInv; infer_instance

/-- Spec formula: the number of unique dummy answers of `q` whose text
differs from the correct answer (the dummies that survive the seen-set
dedup). -/
def specUniqueDummyCount (q : Question) : Nat :=
  ((q.dummyAnswers.getD []).toFinset.erase q.correctAnswer).card

/-- Spec formula: the number of available unique cross-question
distractors — distinct correct answers of other questions that collide
neither with the correct answer nor with a dummy answer of `q`. -/
def specUniqueDistractorCount (allQ : List Question) (q : Question) : Nat :=
  ((getGlobalDistractorPool allQ q.idx).filter
    (fun t => decide (t ≠ q.correctAnswer ∧ t ∉ q.dummyAnswers.getD []))).toFinset.card

/-- Spec formula: the option count claimed by the spec,
`min(4, 1 + |unique dummyAnswers| + |available unique distractors|)`. -/
def specClaimedOptionCount (allQ : List Question) (q : Question) : Nat :=
  min 4 (1 + specUniqueDummyCount q + specUniqueDistractorCount allQ q)

/-- Distractor-pool entries usable for top-up, counted with
multiplicity: texts of the global pool differing from the correct answer
and from every dummy answer of `q`. -/
def availableDistractorSlots (allQ : List Question) (q : Question) : Nat :=
  ((getGlobalDistractorPool allQ q.idx).filter
    (fun t => decide (t ≠ q.correctAnswer ∧ t ∉ q.dummyAnswers.getD []))).length

/-! ## Concrete instances used in witnesses and counterexamples -/

/-- A question with four distinct dummy answers, none equal to the
correct answer, in a single-question store. -/
def exQ4 : Question :=
  { domain := "D", lesson := "", question := "Q", correctAnswer := "E",
    dummyAnswers := some ["A", "B", "C", "F"], idx := some 0 }

/-- A component state with no active session and an already-answered
status, used to witness the defensive no-op guards. -/
def exState0 : QuizState :=
  { allQuestions := [], domains := [], selectedDomains := [],
    minQuestions := 10, sessionQuestions := [], sessionStarted := false,
    currentIndex := 0, currentOptions := [], status := Status.correct,
    statusMessage := "", autoAdvanceTimeout := none, error := none,
    pendingTimeouts := [], nextTimeoutId := 0 }

/-- Two distinct one-domain questions. -/
def exQA : Question :=
  { domain := "D", lesson := "", question := "QA", correctAnswer := "a",
    dummyAnswers := none, idx := some 0 }

/-- Companion question to `exQA`. -/
def exQB : Question :=
  { domain := "D", lesson := "", question := "QB", correctAnswer := "b",
    dummyAnswers := none, idx := some 1 }

/-- An in-progress two-question session at position 0, unanswered, with
no pending timer. -/
def exState1 : QuizState :=
  { allQuestions := [exQA, exQB], domains := ["D"], selectedDomains := ["D"],
    minQuestions := 10, sessionQuestions := [exQA, exQB],
    sessionStarted := true, currentIndex := 0, currentOptions := [],
    status := Status.idle, statusMessage := "", autoAdvanceTimeout := none,
    error := none, pendingTimeouts := [], nextTimeoutId := 0 }

/-- A not-yet-started state whose target count is zero: `startSession`
on it truncates the shuffled candidates to an empty active queue. -/
def exState2 : QuizState :=
  { allQuestions := [exQA], domains := ["D"], selectedDomains := ["D"],
    minQuestions := 0, sessionQuestions := [], sessionStarted := false,
    currentIndex := 0, currentOptions := [], status := Status.idle,
    statusMessage := "", autoAdvanceTimeout := none, error := none,
    pendingTimeouts := [], nextTimeoutId := 0 }

/-- A state whose selected domain matches no question, so the
`startSession` domain filter comes back empty. -/
def exState3 : QuizState :=
  { allQuestions := [exQA], domains := ["D"], selectedDomains := ["X"],
    minQuestions := 10, sessionQuestions := [], sessionStarted := false,
    currentIndex := 0, currentOptions := [], status := Status.idle,
    statusMessage := "", autoAdvanceTimeout := none, error := none,
    pendingTimeouts := [], nextTimeoutId := 0 }

/-! ## Permutation facts about the Fisher–Yates shuffle -/

theorem get_cons_set_perm {α : Type} (t : List α) (k : Nat) (hk : k < t.length)
    (x : α) : List.Perm (t.get ⟨k, hk⟩ :: t.set k x) (x :: t) := by
  induction t generalizing k with
  | nil => exact absurd hk (by simp)
  | cons a t ih =>
    cases k with
    | zero => simpa using List.Perm.swap x a t
    | succ k =>
      have hk2 : k < t.length := Nat.lt_of_succ_lt_succ hk
      have h1 : List.Perm (t.get ⟨k, hk2⟩ :: a :: t.set k x)
          (a :: t.get ⟨k, hk2⟩ :: t.set k x) := List.Perm.swap a _ _
      have h2 : List.Perm (a :: t.get ⟨k, hk2⟩ :: t.set k x) (a :: x :: t) :=
        (ih k hk2).cons a
      have h3 : List.Perm (a :: x :: t) (x :: a :: t) := List.Perm.swap x a t
      simpa using (h1.trans h2).trans h3

theorem set_set_perm {α : Type} (l : List α) (i j : Nat) (hi : i < l.length)
    (hj : j < l.length) :
    List.Perm ((l.set i (l.get ⟨j, hj⟩)).set j (l.get ⟨i, hi⟩)) l := by
  induction l generalizing i j with
  | nil => simp at hi
  | cons a t ih =>
    cases i with
    | zero =>
      cases j with
      | zero => simp
      | succ j =>
        have hj2 : j < t.length := Nat.lt_of_succ_lt_succ hj
        simpa using get_cons_set_perm t j hj2 a
    | succ i =>
      cases j with
      | zero =>
        have hi2 : i < t.length := Nat.lt_of_succ_lt_succ hi
        simpa using get_cons_set_perm t i hi2 a
      | succ j =>
        have hi2 : i < t.length := Nat.lt_of_succ_lt_succ hi
        have hj2 : j < t.length := Nat.lt_of_succ_lt_succ hj
        simpa using (ih i j hi2 hj2).cons a

theorem swapList_perm {α : Type} (a : List α) (i j : Nat) :
    List.Perm (swapList a i j) a := by
  unfold swapList
  split
  · next x y hi hj =>
    obtain ⟨hi2, hx⟩ := List.get?_eq_some.mp hi
    obtain ⟨hj2, hy⟩ := List.get?_eq_some.mp hj
    subst hx; subst hy
    exact set_set_perm a i j hi2 hj2
  · exact List.Perm.refl a
  · exact List.Perm.refl a

theorem shuffleGo_perm {α : Type} (rand : Nat → Nat) :
    ∀ (n : Nat) (a : List α), List.Perm (shuffleGo rand n a) a
  | 0, a => List.Perm.refl a
  | n + 1, a =>
    (shuffleGo_perm rand n _).trans (swapList_perm a (n + 1) _)

theorem shuffleArray_perm {α : Type} (rand : Nat → Nat) (arr : List α) :
    List.Perm (shuffleArray rand arr) arr :=
  shuffleGo_perm rand (arr.length - 1) arr

/-- C9: `shuffleArray` is a permutation: for every random source and
every input array, the output is a permutation of the input (so the
multiset of elements is preserved), both for the per-question option
shuffle and for the session-start candidate shuffle. -/
theorem shuffle_is_permutation :
    (∀ (rand : Nat → Nat) (opts : List QOption),
      List.Perm (shuffleArray rand opts) opts) ∧
    (∀ (rand : Nat → Nat) (qs : List Question),
      List.Perm (shuffleArray rand qs) qs) :=
  ⟨fun r l => shuffleArray_perm r l, fun r l => shuffleArray_perm r l⟩

/-! ## The dummy-answer fold of the Option Builder -/

theorem addDummy_foldl_fst (ts : List String) :
    ∀ (opts : List QOption) (seen : List String),
      ∃ ex, (ts.foldl addDummy (opts, seen)).1 = opts ++ ex ∧
        ∀ o ∈ ex, o.correct = false := by
  induction ts with
  | nil => exact fun opts seen => ⟨[], by simp, by simp⟩
  | cons t ts ih =>
    intro opts seen
    by_cases h : t ∈ seen
    · simpa [addDummy, h] using ih opts seen
    · obtain ⟨ex, he, hall⟩ :=
        ih (opts ++ [{ text := t, correct := false }]) (seen ++ [t])
      refine ⟨{ text := t, correct := false } :: ex, ?_, ?_⟩
      · simp [addDummy, h, he]
      · intro o ho
        rcases List.mem_cons.mp ho with rfl | ho
        · rfl
        · exact hall o ho

theorem addDummy_foldl_snd_mem (ts : List String) :
    ∀ (seen : List String) (opts : List QOption) (x : String),
      x ∈ (ts.foldl addDummy (opts, seen)).2 ↔ x ∈ seen ∨ x ∈ ts := by
  induction ts with
  | nil => intro seen opts x; simp
  | cons t ts ih =>
    intro seen opts x
    by_cases h : t ∈ seen
    · rw [List.foldl_cons]
      simp only [addDummy, h, if_pos]
      rw [ih seen opts x, List.mem_cons]
      constructor
      · rintro (hx | hx)
        · exact Or.inl hx
        · exact Or.inr (Or.inr hx)
      · rintro (hx | rfl | hx)
        · exact Or.inl hx
        · exact Or.inl h
        · exact Or.inr hx
    · rw [List.foldl_cons]
      simp only [addDummy, h, if_neg, if_false]
      rw [ih (seen ++ [t]) _ x]
      simp only [List.mem_append, List.mem_cons, List.mem_singleton]
      tauto

theorem addDummy_foldl_fst_length (ts : List String) :
    ∀ (seen : List String) (opts : List QOption),
      (ts.foldl addDummy (opts, seen)).1.length =
        opts.length + (ts.toFinset \ seen.toFinset).card := by
  induction ts with
  | nil => intro seen opts; simp
  | cons t ts ih =>
    intro seen opts
    by_cases h : t ∈ seen
    · rw [List.foldl_cons]
      simp only [addDummy, h, if_pos]
      rw [ih seen opts]
      have hset : (t :: ts).toFinset \ seen.toFinset =
          ts.toFinset \ seen.toFinset := by
        ext x
        simp only [List.toFinset_cons, Finset.mem_sdiff, Finset.mem_insert,
          List.mem_toFinset]
        constructor
        · rintro ⟨rfl | hx, hns⟩
          · exact absurd h hns
          · exact ⟨hx, hns⟩
        · rintro ⟨hx, hns⟩
          exact ⟨Or.inr hx, hns⟩
      rw [hset]
    · rw [List.foldl_cons]
      simp only [addDummy, h, if_neg, if_false]
      rw [ih (seen ++ [t])]
      have key : ((t :: ts).toFinset \ seen.toFinset).card =
          (ts.toFinset \ (seen ++ [t]).toFinset).card + 1 := by
        have h1 : (t :: ts).toFinset \ seen.toFinset =
            insert t (ts.toFinset \ seen.toFinset) := by
          ext x
          simp only [List.toFinset_cons, Finset.mem_sdiff, Finset.mem_insert,
            List.mem_toFinset]
          constructor
          · rintro ⟨rfl | hx, hns⟩
            · exact Or.inl rfl
            · exact Or.inr ⟨hx, hns⟩
          · rintro (rfl | ⟨hx, hns⟩)
            · exact ⟨Or.inl rfl, fun hc => h hc⟩
            · exact ⟨Or.inr hx, hns⟩
        have h2 : ts.toFinset \ (seen ++ [t]).toFinset =
            (ts.toFinset \ seen.toFinset).erase t := by
          ext x
          simp only [List.toFinset_append, Finset.mem_sdiff, Finset.mem_union,
            Finset.mem_erase, List.toFinset_cons, List.toFinset_nil,
            insert_emptyc_eq, Finset.mem_singleton, List.mem_toFinset]
          tauto
        have h3 : (insert t (ts.toFinset \ seen.toFinset)).erase t =
            (ts.toFinset \ seen.toFinset).erase t := by
          ext x
          simp only [Finset.mem_erase, Finset.mem_insert]
          tauto
        have ht : t ∈ insert t (ts.toFinset \ seen.toFinset) :=
          Finset.mem_insert_self t _
        rw [h1, h2, ← Finset.card_erase_add_one ht, h3]
      rw [key]
      simp only [List.length_append, List.length_singleton]
      omega

theorem one_correct_of_parts (c : String) (ex : List QOption) (B : List String)
    (r : Nat → Nat) (hex : ∀ o ∈ ex, o.correct = false) :
    (shuffleArray r (({ text := c, correct := true } :: ex) ++
        B.map (fun t => { text := t, correct := false }))).countP
      (fun o => o.correct) = 1 ∧
    ∀ o ∈ shuffleArray r (({ text := c, correct := true } :: ex) ++
        B.map (fun t => { text := t, correct := false })),
      o.correct = true → o.text = c := by
  have h1 : ex.countP (fun o => o.correct) = 0 := by
    apply List.countP_eq_zero.mpr
    intro o ho
    simp [hex o ho]
  have h2 : (B.map (fun t => ({ text := t, correct := false } : QOption))).countP
      (fun o => o.correct) = 0 := by
    apply List.countP_eq_zero.mpr
    intro o ho
    rcases List.mem_map.mp ho with ⟨t, _, rfl⟩
    simp
  have hperm := shuffleArray_perm r (({ text := c, correct := true } :: ex) ++
    B.map (fun t => ({ text := t, correct := false } : QOption)))
  constructor
  · rw [hperm.countP_eq]
    simp [List.countP_append, List.countP_cons, h1, h2]
  · intro o ho hoc
    have hmem : o ∈ ({ text := c, correct := true } :: ex) ++
        B.map (fun t => ({ text := t, correct := false } : QOption)) :=
      hperm.subset ho
    rcases List.mem_append.mp hmem with hmem | hmem
    · rcases List.mem_cons.mp hmem with rfl | hmem
      · rfl
      · exact absurd hoc (by simp [hex o hmem])
    · rcases List.mem_map.mp hmem with ⟨t, _, rfl⟩
      exact absurd hoc (by simp)

/-- C1: for every question, every store and every random source, the
option list returned by `buildOptionsForQuestion` contains exactly one
option with `correct = true`, and every option marked correct has the
text of the correct answer of the question. -/
theorem buildOptions_exactly_one_correct (r1 r2 : Nat → Nat)
    (allQ : List Question) (q : Question) :
    (buildOptionsForQuestion r1 r2 allQ q).countP (fun o => o.correct) = 1 ∧
    ∀ o ∈ buildOptionsForQuestion r1 r2 allQ q, o.correct = true →
      o.text = q.correctAnswer := by
  obtain ⟨ex, he, hex⟩ := addDummy_foldl_fst (q.dummyAnswers.getD [])
    [{ text := q.correctAnswer, correct := true }] [q.correctAnswer]
  simp only [buildOptionsForQuestion]
  rw [he]
  simpa using one_correct_of_parts q.correctAnswer ex
    ((shuffleArray r1 ((getGlobalDistractorPool allQ q.idx).filter
      (fun t => decide (t ∉ ((q.dummyAnswers.getD []).foldl addDummy
        (([{ text := q.correctAnswer, correct := true }] : List QOption),
          [q.correctAnswer])).2)))).take
      (4 - (([{ text := q.correctAnswer, correct := true }] : List QOption)
        ++ ex).length))
    r2 hex

/-- C2 counterexample: for the question `exQ4`, which has four distinct
dummy answers none of which equals the correct answer, the builder
returns five options, while the spec formula
`min(4, 1 + unique dummies + available unique distractors)` yields four:
the code never caps the per-question dummy answers at the desired option
count. -/
theorem buildOptions_count_claim_false :
    (buildOptionsForQuestion (fun _ => 0) (fun _ => 0) [exQ4] exQ4).length ≠
      specClaimedOptionCount [exQ4] exQ4 := by
  decide

/-- C2 (amended): for every question, store and random source, the
number of options equals `(1 + d) + min (3 - d) p` where `d` is the
number of unique dummy answers different from the correct answer and `p`
is the number of distractor-pool entries, counted with multiplicity,
whose text differs from the correct answer and from every dummy answer.
In particular the count exceeds 4 when more than three unique dummies
exist, and duplicated texts inside the cross-question pool are counted
once per occurrence; a total below 4 is a legitimate result, not an
error. -/
theorem buildOptions_length_formula (r1 r2 : Nat → Nat)
    (allQ : List Question) (q : Question) :
    (buildOptionsForQuestion r1 r2 allQ q).length =
      (1 + specUniqueDummyCount q) +
        min (3 - specUniqueDummyCount q) (availableDistractorSlots allQ q) := by
  simp only [buildOptionsForQuestion]
  rw [(shuffleArray_perm r2 _).length_eq]
  rw [List.length_append, List.length_map, List.length_take]
  rw [(shuffleArray_perm r1 _).length_eq]
  have hd : (((q.dummyAnswers.getD []).foldl addDummy
      (([{ text := q.correctAnswer, correct := true }] : List QOption),
        [q.correctAnswer])).1).length = 1 + specUniqueDummyCount q := by
    rw [addDummy_foldl_fst_length]
    have hsing : ([q.correctAnswer] : List String).toFinset =
        {q.correctAnswer} := by simp
    rw [hsing, Finset.sdiff_singleton_eq_erase]
    simp [specUniqueDummyCount]
  have hfilter : ((getGlobalDistractorPool allQ q.idx).filter
      (fun t => decide (t ∉ (((q.dummyAnswers.getD []).foldl addDummy
        (([{ text := q.correctAnswer, correct := true }] : List QOption),
          [q.correctAnswer])).2)))).length =
      availableDistractorSlots allQ q := by
    unfold availableDistractorSlots
    congr 1
    apply List.filter_congr
    intro t _
    rw [decide_eq_decide, addDummy_foldl_snd_mem]
    simp

  rw [hd, hfilter]
  omega

/-! ## Frame facts about the timer helpers -/

@[simp]
theorem clearTimer_sessionQuestions (s : QuizState) :
    (clearAutoAdvanceTimer s).sessionQuestions = s.sessionQuestions := by
  unfold clearAutoAdvanceTimer; split <;> rfl

@[simp]
theorem clearTimer_currentIndex (s : QuizState) :
    (clearAutoAdvanceTimer s).currentIndex = s.currentIndex := by
  unfold clearAutoAdvanceTimer; split <;> rfl

@[simp]
theorem clearTimer_sessionStarted (s : QuizState) :
    (clearAutoAdvanceTimer s).sessionStarted = s.sessionStarted := by
  unfold clearAutoAdvanceTimer; split <;> rfl

@[simp]
theorem clearTimer_currentOptions (s : QuizState) :
    (clearAutoAdvanceTimer s).currentOptions = s.currentOptions := by
  unfold clearAutoAdvanceTimer; split <;> rfl

@[simp]
theorem clearTimer_status (s : QuizState) :
    (clearAutoAdvanceTimer s).status = s.status := by
  unfold clearAutoAdvanceTimer; split <;> rfl

@[simp]
theorem clearTimer_statusMessage (s : QuizState) :
    (clearAutoAdvanceTimer s).statusMessage = s.statusMessage := by
  unfold clearAutoAdvanceTimer; split <;> rfl

@[simp]
theorem clearTimer_error (s : QuizState) :
    (clearAutoAdvanceTimer s).error = s.error := by
  unfold clearAutoAdvanceTimer; split <;> rfl

@[simp]
theorem clearTimer_allQuestions (s : QuizState) :
    (clearAutoAdvanceTimer s).allQuestions = s.allQuestions := by
  unfold clearAutoAdvanceTimer; split <;> rfl

@[simp]
theorem clearTimer_domains (s : QuizState) :
    (clearAutoAdvanceTimer s).domains = s.domains := by
  unfold clearAutoAdvanceTimer; split <;> rfl

@[simp]
theorem clearTimer_selectedDomains (s : QuizState) :
    (clearAutoAdvanceTimer s).selectedDomains = s.selectedDomains := by
  unfold clearAutoAdvanceTimer; split <;> rfl

@[simp]
theorem clearTimer_minQuestions (s : QuizState) :
    (clearAutoAdvanceTimer s).minQuestions = s.minQuestions := by
  unfold clearAutoAdvanceTimer; split <;> rfl

@[simp]
theorem clearTimer_autoAdvanceTimeout (s : QuizState) :
    (clearAutoAdvanceTimer s).autoAdvanceTimeout = none := by
  unfold clearAutoAdvanceTimer; split <;> simp_all

@[simp]
theorem clearTimer_nextTimeoutId (s : QuizState) :
    (clearAutoAdvanceTimer s).nextTimeoutId = s.nextTimeoutId := by
  unfold clearAutoAdvanceTimer; split <;> rfl

theorem clearTimer_pendingTimeouts_of_inv (s : QuizState) (h : timerInv s) :
    (clearAutoAdvanceTimer s).pendingTimeouts = [] := by
  unfold clearAutoAdvanceTimer
  unfold timerInv at h
  cases hslot : s.autoAdvanceTimeout with
  | none => simp_all
  | some id => simp_all [List.erase_cons_head]

theorem clearTimer_timerInv (s : QuizState) (h : timerInv s) :
    timerInv (clearAutoAdvanceTimer s) := by
  unfold timerInv
  rw [clearTimer_pendingTimeouts_of_inv s h, clearTimer_autoAdvanceTimeout]
  rfl

@[simp]
theorem prepare_sessionQuestions (r1 r2 : Nat → Nat) (s : QuizState) :
    (prepareCurrentQuestion r1 r2 s).sessionQuestions = s.sessionQuestions := by
  unfold prepareCurrentQuestion; split <;> rfl

@[simp]
theorem prepare_currentIndex (r1 r2 : Nat → Nat) (s : QuizState) :
    (prepareCurrentQuestion r1 r2 s).currentIndex = s.currentIndex := by
  unfold prepareCurrentQuestion; split <;> rfl

@[simp]
theorem prepare_sessionStarted (r1 r2 : Nat → Nat) (s : QuizState) :
    (prepareCurrentQuestion r1 r2 s).sessionStarted = s.sessionStarted := by
  unfold prepareCurrentQuestion; split <;> rfl

@[simp]
theorem prepare_status (r1 r2 : Nat → Nat) (s : QuizState) :
    (prepareCurrentQuestion r1 r2 s).status = Status.idle := by
  unfold prepareCurrentQuestion; split <;> rfl

@[simp]
theorem prepare_error (r1 r2 : Nat → Nat) (s : QuizState) :
    (prepareCurrentQuestion r1 r2 s).error = s.error := by
  unfold prepareCurrentQuestion; split <;> rfl

@[simp]
theorem prepare_pendingTimeouts (r1 r2 : Nat → Nat) (s : QuizState) :
    (prepareCurrentQuestion r1 r2 s).pendingTimeouts = s.pendingTimeouts := by
  unfold prepareCurrentQuestion; split <;> rfl

@[simp]
theorem prepare_autoAdvanceTimeout (r1 r2 : Nat → Nat) (s : QuizState) :
    (prepareCurrentQuestion r1 r2 s).autoAdvanceTimeout =
      s.autoAdvanceTimeout := by
  unfold prepareCurrentQuestion; split <;> rfl

@[simp]
theorem prepare_selectedDomains (r1 r2 : Nat → Nat) (s : QuizState) :
    (prepareCurrentQuestion r1 r2 s).selectedDomains = s.selectedDomains := by
  unfold prepareCurrentQuestion; split <;> rfl

@[simp]
theorem prepare_minQuestions (r1 r2 : Nat → Nat) (s : QuizState) :
    (prepareCurrentQuestion r1 r2 s).minQuestions = s.minQuestions := by
  unfold prepareCurrentQuestion; split <;> rfl

@[simp]
theorem activeDomainsOf_clearTimer (s : QuizState) :
    activeDomainsOf (clearAutoAdvanceTimer s) = activeDomainsOf s := by
  unfold activeDomainsOf; simp

@[simp]
theorem sessionCandidates_clearTimer (s : QuizState) :
    sessionCandidates (clearAutoAdvanceTimer s) = sessionCandidates s := by
  unfold sessionCandidates; simp

/-! ## Behaviour of handleAnswerClick -/

/-- C8: `handleAnswerClick` is a no-op whenever the answer status is not
idle, and `nextQuestion` is a no-op when no session is started; both are
total functions of the state, so repeated or out-of-order calls leave
the state unchanged rather than erroring. -/
theorem answer_advance_total_noops (opt : QOption) (r1 r2 : Nat → Nat)
    (s : QuizState) :
    (s.status ≠ Status.idle → handleAnswerClick opt s = s) ∧
    (s.sessionStarted = false → nextQuestion r1 r2 s = s) := by
  constructor
  · intro h
    unfold handleAnswerClick
    rw [if_pos h]
  · intro h
    unfold nextQuestion
    rw [if_pos h]

theorem answer_advance_total_noops_witness :
    handleAnswerClick { text := "x", correct := true } exState0 = exState0 ∧
    nextQuestion (fun _ => 0) (fun _ => 0) exState0 = exState0 :=
  ⟨(answer_advance_total_noops { text := "x", correct := true }
      (fun _ => 0) (fun _ => 0) exState0).1 (by decide),
   (answer_advance_total_noops { text := "x", correct := true }
      (fun _ => 0) (fun _ => 0) exState0).2 (by decide)⟩

theorem answer_frame_aux (opt : QOption) (s : QuizState) :
    (handleAnswerClick opt s).currentIndex = s.currentIndex ∧
    (handleAnswerClick opt s).currentOptions = s.currentOptions ∧
    (handleAnswerClick opt s).sessionStarted = s.sessionStarted ∧
    (handleAnswerClick opt s).error = s.error ∧
    (handleAnswerClick opt s).allQuestions = s.allQuestions ∧
    (handleAnswerClick opt s).domains = s.domains ∧
    (handleAnswerClick opt s).selectedDomains = s.selectedDomains ∧
    (handleAnswerClick opt s).minQuestions = s.minQuestions ∧
    ((handleAnswerClick opt s).sessionQuestions = s.sessionQuestions ∨
      ∃ q, s.sessionQuestions.get? s.currentIndex = some q ∧
        (handleAnswerClick opt s).sessionQuestions =
          s.sessionQuestions ++ [q]) := by
  unfold handleAnswerClick scheduleAutoAdvance
  by_cases h : s.status ≠ Status.idle
  · rw [if_pos h]
    simp
  · rw [if_neg h]
    by_cases hc : opt.correct = true
    · rw [if_pos hc]
      simp
    · rw [if_neg hc]
      dsimp only []
      split
      · next cur hcur =>
        split
        · simp
        · refine ⟨by simp, by simp, by simp, by simp, by simp, by simp,
            by simp, by simp, Or.inr ⟨cur, ?_, by simp⟩⟩
          simpa using hcur
      · simp

/-- C10: `handleAnswerClick` never changes the cursor, the displayed
option list, the started flag, the error, the configuration or the
store; the queue is either unchanged or extended by exactly one appended
reference to the question at the current position, so no existing entry
is modified or reordered. -/
theorem answer_frame (opt : QOption) (s : QuizState) :
    (handleAnswerClick opt s).currentIndex = s.currentIndex ∧
    (handleAnswerClick opt s).currentOptions = s.currentOptions ∧
    (handleAnswerClick opt s).sessionStarted = s.sessionStarted ∧
    (handleAnswerClick opt s).error = s.error ∧
    (handleAnswerClick opt s).allQuestions = s.allQuestions ∧
    (handleAnswerClick opt s).domains = s.domains ∧
    (handleAnswerClick opt s).selectedDomains = s.selectedDomains ∧
    (handleAnswerClick opt s).minQuestions = s.minQuestions ∧
    ((handleAnswerClick opt s).sessionQuestions = s.sessionQuestions ∨
      ∃ q, s.sessionQuestions.get? s.currentIndex = some q ∧
        (handleAnswerClick opt s).sessionQuestions =
          s.sessionQuestions ++ [q]) :=
  answer_frame_aux opt s

/-- C3: in an unanswered active state, answering with an incorrect
option appends the current question reference to the end of the queue
exactly when no entry strictly after the current position is that
reference; the queue grows by at most one, and afterwards the reference
occurs exactly once in the remainder of the queue (given that it
occurred at most once there before, which holds in every reachable
state). -/
theorem answer_incorrect_requeues_once (opt : QOption) (s : QuizState)
    (cur : Question) (hst : s.status = Status.idle)
    (hopt : opt.correct = false)
    (hcur : s.sessionQuestions.get? s.currentIndex = some cur)
    (hcount : (s.sessionQuestions.drop (s.currentIndex + 1)).count cur ≤ 1) :
    (handleAnswerClick opt s).sessionQuestions =
      (if cur ∈ s.sessionQuestions.drop (s.currentIndex + 1)
        then s.sessionQuestions else s.sessionQuestions ++ [cur]) ∧
    (handleAnswerClick opt s).sessionQuestions.length ≤
      s.sessionQuestions.length + 1 ∧
    ((handleAnswerClick opt s).sessionQuestions.drop
      (s.currentIndex + 1)).count cur = 1 := by
  have h0 : ¬ s.status ≠ Status.idle := by rw [hst]; simp
  have hc : ¬ opt.correct = true := by rw [hopt]; simp
  have hix : s.currentIndex + 1 ≤ s.sessionQuestions.length := by
    rcases List.get?_eq_some.mp hcur with ⟨hlt, _⟩
    omega
  have hq : (handleAnswerClick opt s).sessionQuestions =
      (if cur ∈ s.sessionQuestions.drop (s.currentIndex + 1)
        then s.sessionQuestions else s.sessionQuestions ++ [cur]) := by
    unfold handleAnswerClick
    rw [if_neg h0, if_neg hc]
    dsimp only []
    have hcur2 : (clearAutoAdvanceTimer s).sessionQuestions.get?
        (clearAutoAdvanceTimer s).currentIndex = some cur := by
      simpa using hcur
    split
    · next cur2 hcur3 =>
      have hsame : cur2 = cur := by
        rw [hcur2] at hcur3
        exact (Option.some.injEq _ _ ▸ hcur3).symm
      subst hsame
      by_cases hmem : cur2 ∈ s.sessionQuestions.drop (s.currentIndex + 1)
      · rw [if_pos (by simpa using hmem), if_pos hmem]
        simp
      · rw [if_neg (by simpa using hmem), if_neg hmem]
        simp
    · next hnone =>
      rw [hcur2] at hnone
      cases hnone
  refine ⟨hq, ?_, ?_⟩
  · rw [hq]
    by_cases hmem : cur ∈ s.sessionQuestions.drop (s.currentIndex + 1)
    · rw [if_pos hmem]; omega
    · rw [if_neg hmem]; simp
  · rw [hq]
    by_cases hmem : cur ∈ s.sessionQuestions.drop (s.currentIndex + 1)
    · rw [if_pos hmem]
      have hpos : 0 < (s.sessionQuestions.drop (s.currentIndex + 1)).count cur :=
        List.count_pos_iff.mpr hmem
      omega
    · rw [if_neg hmem]
      rw [List.drop_append_of_le_length hix]
      rw [List.count_append, List.count_eq_zero.mpr hmem,
        List.count_singleton_self]

theorem answer_incorrect_requeues_once_witness :
    exState1.status = Status.idle ∧
    (QOption.correct { text := "z", correct := false }) = false ∧
    exState1.sessionQuestions.get? exState1.currentIndex = some exQA ∧
    (exState1.sessionQuestions.drop (exState1.currentIndex + 1)).count exQA ≤ 1 ∧
    ((handleAnswerClick { text := "z", correct := false }
        exState1).sessionQuestions =
      (if exQA ∈ exState1.sessionQuestions.drop (exState1.currentIndex + 1)
        then exState1.sessionQuestions
        else exState1.sessionQuestions ++ [exQA]) ∧
    (handleAnswerClick { text := "z", correct := false }
        exState1).sessionQuestions.length ≤
      exState1.sessionQuestions.length + 1 ∧
    ((handleAnswerClick { text := "z", correct := false }
        exState1).sessionQuestions.drop
      (exState1.currentIndex + 1)).count exQA = 1) :=
  ⟨by decide, by decide, by decide, by decide,
    answer_incorrect_requeues_once { text := "z", correct := false }
      exState1 exQA (by decide) (by decide) (by decide) (by decide)⟩

/-! ## The session invariant -/

theorem start_sessionInv (r1 r2 r3 : Nat → Nat) (s : QuizState)
    (hinv : sessionInv s) (hmin : 1 ≤ s.minQuestions) :
    sessionInv (startSession r1 r2 r3 s) := by
  unfold startSession
  by_cases hall : s.allQuestions.length = 0
  · rw [if_pos hall]; exact hinv
  · rw [if_neg hall]
    dsimp only []
    by_cases hsel : (clearAutoAdvanceTimer s).selectedDomains.isEmpty = true
    · rw [if_pos hsel]
      by_cases hcand :
          (sessionCandidates (clearAutoAdvanceTimer s)).isEmpty = true
      · rw [if_pos hcand]
        unfold sessionInv at hinv ⊢
        simpa using hinv
      · rw [if_neg hcand]
        unfold sessionInv
        simp only [prepare_sessionStarted, prepare_currentIndex,
          prepare_sessionQuestions]
        intro _
        have hne : sessionCandidates (clearAutoAdvanceTimer s) ≠ [] :=
          fun he => hcand (List.isEmpty_iff.mpr he)
        have hpos : 0 < (sessionCandidates (clearAutoAdvanceTimer s)).length :=
          List.length_pos.mpr hne
        have hlen := (shuffleArray_perm r1
          (sessionCandidates (clearAutoAdvanceTimer s))).length_eq
        split
        · next hgt =>
          simp only [List.length_take, clearTimer_minQuestions]
          omega
        · next hgt => omega
    · rw [if_neg hsel]
      by_cases hcand :
          (sessionCandidates (clearAutoAdvanceTimer s)).isEmpty = true
      · rw [if_pos hcand]
        unfold sessionInv at hinv ⊢
        simpa using hinv
      · rw [if_neg hcand]
        unfold sessionInv
        simp only [prepare_sessionStarted, prepare_currentIndex,
          prepare_sessionQuestions]
        intro _
        have hne : sessionCandidates (clearAutoAdvanceTimer s) ≠ [] :=
          fun he => hcand (List.isEmpty_iff.mpr he)
        have hpos : 0 < (sessionCandidates (clearAutoAdvanceTimer s)).length :=
          List.length_pos.mpr hne
        have hlen := (shuffleArray_perm r1
          (sessionCandidates (clearAutoAdvanceTimer s))).length_eq
        split
        · next hgt =>
          simp only [List.length_take, clearTimer_minQuestions]
          omega
        · next hgt => omega

theorem answer_sessionInv (opt : QOption) (s : QuizState)
    (hinv : sessionInv s) : sessionInv (handleAnswerClick opt s) := by
  obtain ⟨hidx, -, hstart, -, -, -, -, -, hq⟩ := answer_frame_aux opt s
  unfold sessionInv at hinv ⊢
  rw [hidx, hstart]
  intro h
  have := hinv h
  rcases hq with hq | ⟨q, -, hq⟩
  · rw [hq]; exact this
  · rw [hq]; simp; omega

theorem next_sessionInv (r1 r2 : Nat → Nat) (s : QuizState)
    (hinv : sessionInv s) : sessionInv (nextQuestion r1 r2 s) := by
  unfold nextQuestion
  by_cases hstart : s.sessionStarted = false
  · rw [if_pos hstart]; exact hinv
  · rw [if_neg hstart]
    dsimp only []
    have hs : s.sessionStarted = true := by
      cases h : s.sessionStarted
      · exact absurd h hstart
      · rfl
    have hlt := hinv hs
    split
    · next hcond =>
      unfold sessionInv
      simp only [prepare_sessionStarted, prepare_currentIndex,
        prepare_sessionQuestions, clearTimer_sessionStarted,
        clearTimer_currentIndex, clearTimer_sessionQuestions]
      intro _
      simp only [clearTimer_currentIndex, clearTimer_sessionQuestions] at hcond
      omega
    · next hcond =>
      unfold sessionInv
      simp

/-- C5 counterexample: starting a session from `exState2`, whose target
count is 0 and whose store has one matching candidate, yields an active
session (`sessionStarted = true`) with an empty queue, so the invariant
`currentIndex < queue.length` fails: `start` with an arbitrary config
does not preserve the invariant. -/
theorem session_invariant_any_config_false :
    sessionInv exState2 ∧ 1 ≤ exState2.allQuestions.length ∧
      ¬ sessionInv (startSession (fun _ => 0) (fun _ => 0) (fun _ => 0)
        exState2) := by
  decide

/-- C5 (amended): while a session is active the invariant
`0 ≤ position < queue.length` holds, and it is preserved by `answer` and
`advance` on every state and by `start` on every config whose
`targetCount` is at least 1 (in particular the whole UI-clamped range
[5,100]); a `targetCount` of 0 together with a nonempty candidate set is
the one family of configs where `start` violates it. -/
theorem session_invariant_preserved (r1 r2 r3 : Nat → Nat) (opt : QOption)
    (s : QuizState) (hinv : sessionInv s) (hmin : 1 ≤ s.minQuestions) :
    sessionInv (startSession r1 r2 r3 s) ∧
    sessionInv (handleAnswerClick opt s) ∧
    sessionInv (nextQuestion r1 r2 s) :=
  ⟨start_sessionInv r1 r2 r3 s hinv hmin,
   answer_sessionInv opt s hinv,
   next_sessionInv r1 r2 s hinv⟩

theorem session_invariant_preserved_witness :
    sessionInv (startSession (fun _ => 0) (fun _ => 0) (fun _ => 0)
      exState1) ∧
    sessionInv (handleAnswerClick { text := "z", correct := false }
      exState1) ∧
    sessionInv (nextQuestion (fun _ => 0) (fun _ => 0) exState1) :=
  session_invariant_preserved (fun _ => 0) (fun _ => 0) (fun _ => 0)
    { text := "z", correct := false } exState1 (by decide) (by decide)

/-! ## Behaviour of startSession -/

/-- C6: on a successful start the initial queue is a permutation of a
prefix-truncation of the shuffled domain-filtered candidates: when the
target count is at least the number of matching candidates, the queue is
a permutation of the candidate list (every matching candidate exactly
once); when there are more candidates than the target, the queue has
exactly `targetCount` entries and is a sub-permutation of the candidate
list. -/
theorem start_queue_truncation (r1 r2 r3 : Nat → Nat) (s : QuizState)
    (hall : s.allQuestions.length ≠ 0)
    (hcand : sessionCandidates s ≠ []) :
    ((sessionCandidates s).length ≤ s.minQuestions →
      List.Perm (startSession r1 r2 r3 s).sessionQuestions
        (sessionCandidates s)) ∧
    (s.minQuestions < (sessionCandidates s).length →
      (startSession r1 r2 r3 s).sessionQuestions.length = s.minQuestions ∧
      List.Subperm (startSession r1 r2 r3 s).sessionQuestions
        (sessionCandidates s)) := by
  have hq : (startSession r1 r2 r3 s).sessionQuestions =
      (if (shuffleArray r1 (sessionCandidates s)).length > s.minQuestions
        then (shuffleArray r1 (sessionCandidates s)).take s.minQuestions
        else shuffleArray r1 (sessionCandidates s)) := by
    unfold startSession
    rw [if_neg hall]
    dsimp only []
    have hcand2 : ¬ (sessionCandidates (clearAutoAdvanceTimer s)).isEmpty = true := by
      simp only [sessionCandidates_clearTimer]
      exact fun he => hcand (List.isEmpty_iff.mp he)
    rw [if_neg hcand2]
    by_cases hsel : (clearAutoAdvanceTimer s).selectedDomains.isEmpty = true
    · rw [if_pos hsel]
      simp
    · rw [if_neg hsel]
      simp
  have hperm := shuffleArray_perm r1 (sessionCandidates s)
  have hlen := hperm.length_eq
  constructor
  · intro hle
    rw [hq, if_neg (by omega)]
    exact hperm
  · intro hgt
    rw [hq, if_pos (by omega)]
    refine ⟨?_, ?_⟩
    · rw [List.length_take]
      omega
    · exact List.Subperm.trans
        (List.Sublist.subperm (List.take_sublist _ _)) hperm.subperm

theorem start_queue_truncation_witness :
    List.Perm (startSession (fun _ => 0) (fun _ => 0) (fun _ => 0)
        exState1).sessionQuestions
      (sessionCandidates exState1) :=
  (start_queue_truncation (fun _ => 0) (fun _ => 0) (fun _ => 0) exState1
    (by decide) (by decide)).1 (by decide)

/-- C7: when the domain filter leaves no candidates, `startSession`
returns normally, records the no-candidates condition in the error
message, and leaves queue, cursor, started flag and answer status
unchanged; the condition is non-fatal at the state level: a later
`startSession` from any state whose filter is nonempty (e.g. after the
user changes domains) starts a session. -/
theorem start_no_candidates (r1 r2 r3 : Nat → Nat) (s t : QuizState)
    (hall : s.allQuestions.length ≠ 0)
    (hcand : sessionCandidates s = [])
    (htall : t.allQuestions.length ≠ 0)
    (htcand : sessionCandidates t ≠ []) :
    (startSession r1 r2 r3 s).error =
      some "No questions found for the selected domains." ∧
    (startSession r1 r2 r3 s).sessionQuestions = s.sessionQuestions ∧
    (startSession r1 r2 r3 s).currentIndex = s.currentIndex ∧
    (startSession r1 r2 r3 s).sessionStarted = s.sessionStarted ∧
    (startSession r1 r2 r3 s).status = s.status ∧
    (startSession r1 r2 r3 t).sessionStarted = true := by
  have hfail : ∀ u : QuizState, u.allQuestions.length ≠ 0 →
      sessionCandidates u ≠ [] →
      (startSession r1 r2 r3 u).sessionStarted = true := by
    intro u hu1 hu2
    unfold startSession
    rw [if_neg hu1]
    dsimp only []
    have hcand2 : ¬ (sessionCandidates (clearAutoAdvanceTimer u)).isEmpty = true := by
      simp only [sessionCandidates_clearTimer]
      exact fun he => hu2 (List.isEmpty_iff.mp he)
    rw [if_neg hcand2]
    by_cases hsel : (clearAutoAdvanceTimer u).selectedDomains.isEmpty = true
    · rw [if_pos hsel]; simp
    · rw [if_neg hsel]; simp
  have hcand2 : (sessionCandidates (clearAutoAdvanceTimer s)).isEmpty = true := by
    simp only [sessionCandidates_clearTimer]
    exact List.isEmpty_iff.mpr hcand
  by_cases hsel : (clearAutoAdvanceTimer s).selectedDomains.isEmpty = true
  · have hres : startSession r1 r2 r3 s =
        { clearAutoAdvanceTimer s with
          selectedDomains := (clearAutoAdvanceTimer s).domains,
          error := some "No questions found for the selected domains." } := by
      unfold startSession
      rw [if_neg hall]
      dsimp only []
      rw [if_pos hsel, if_pos hcand2]
    exact ⟨by simp [hres], by simp [hres], by simp [hres], by simp [hres],
      by simp [hres], hfail t htall htcand⟩
  · have hres : startSession r1 r2 r3 s =
        { clearAutoAdvanceTimer s with
          error := some "No questions found for the selected domains." } := by
      unfold startSession
      rw [if_neg hall]
      dsimp only []
      rw [if_neg hsel, if_pos hcand2]
    exact ⟨by simp [hres], by simp [hres], by simp [hres], by simp [hres],
      by simp [hres], hfail t htall htcand⟩

theorem start_no_candidates_witness :
    (startSession (fun _ => 0) (fun _ => 0) (fun _ => 0) exState3).error =
      some "No questions found for the selected domains." ∧
    (startSession (fun _ => 0) (fun _ => 0) (fun _ => 0)
      exState3).sessionQuestions = exState3.sessionQuestions ∧
    (startSession (fun _ => 0) (fun _ => 0) (fun _ => 0)
      exState3).currentIndex = exState3.currentIndex ∧
    (startSession (fun _ => 0) (fun _ => 0) (fun _ => 0)
      exState3).sessionStarted = exState3.sessionStarted ∧
    (startSession (fun _ => 0) (fun _ => 0) (fun _ => 0)
      exState3).status = exState3.status ∧
    (startSession (fun _ => 0) (fun _ => 0) (fun _ => 0)
      exState1).sessionStarted = true :=
  start_no_candidates (fun _ => 0) (fun _ => 0) (fun _ => 0) exState3
    exState1 (by decide) (by decide) (by decide) (by decide)

/-! ## The auto-advance timer -/

theorem clearTimer_of_none (s : QuizState) (h : s.autoAdvanceTimeout = none) :
    clearAutoAdvanceTimer s = s := by
  unfold clearAutoAdvanceTimer
  rw [h]

theorem nextQuestion_facts (r1 r2 : Nat → Nat) (s : QuizState)
    (hstart : s.sessionStarted = true) :
    (nextQuestion r1 r2 s).pendingTimeouts =
      (clearAutoAdvanceTimer s).pendingTimeouts ∧
    (s.currentIndex < s.sessionQuestions.length - 1 →
      (nextQuestion r1 r2 s).currentIndex = s.currentIndex + 1 ∧
      (nextQuestion r1 r2 s).sessionStarted = true) ∧
    (¬ s.currentIndex < s.sessionQuestions.length - 1 →
      (nextQuestion r1 r2 s).sessionStarted = false) := by
  unfold nextQuestion
  rw [if_neg (by simp [hstart])]
  dsimp only []
  by_cases hlt : (clearAutoAdvanceTimer s).currentIndex <
      (clearAutoAdvanceTimer s).sessionQuestions.length - 1
  · rw [if_pos hlt]
    simp only [clearTimer_currentIndex, clearTimer_sessionQuestions] at hlt
    refine ⟨by simp, fun _ => ⟨by simp, by simp [hstart]⟩, fun h => absurd hlt h⟩
  · rw [if_neg hlt]
    simp only [clearTimer_currentIndex, clearTimer_sessionQuestions] at hlt
    exact ⟨by simp, fun h => absurd h hlt, fun _ => by simp⟩

/-- C4: from an unanswered active state with the single-slot timer
discipline, answering correctly arms exactly one auto-advance timeout
(cancelling any previously armed one); firing that timeout performs the
advance transition — the next index, or session end at the last index —
and a manual `nextQuestion` before the fire empties the outstanding set,
after which the armed timeout is a no-op, so answer, manual advance and
timer fire can never advance the position twice for one answered
question. -/
theorem auto_advance_single_slot (r1 r2 r3 r4 : Nat → Nat) (opt : QOption)
    (s : QuizState) (hinv : timerInv s) (hst : s.status = Status.idle)
    (hc : opt.correct = true) (hstarted : s.sessionStarted = true) :
    (handleAnswerClick opt s).autoAdvanceTimeout = some s.nextTimeoutId ∧
    (handleAnswerClick opt s).pendingTimeouts = [s.nextTimeoutId] ∧
    timerInv (handleAnswerClick opt s) ∧
    (s.currentIndex < s.sessionQuestions.length - 1 →
      (fireTimeout s.nextTimeoutId r1 r2
        (handleAnswerClick opt s)).currentIndex = s.currentIndex + 1 ∧
      (fireTimeout s.nextTimeoutId r1 r2
        (handleAnswerClick opt s)).sessionStarted = true) ∧
    (¬ s.currentIndex < s.sessionQuestions.length - 1 →
      (fireTimeout s.nextTimeoutId r1 r2
        (handleAnswerClick opt s)).sessionStarted = false) ∧
    (nextQuestion r3 r4 (handleAnswerClick opt s)).pendingTimeouts = [] ∧
    fireTimeout s.nextTimeoutId r1 r2
        (nextQuestion r3 r4 (handleAnswerClick opt s)) =
      nextQuestion r3 r4 (handleAnswerClick opt s) := by
  have hpend : (clearAutoAdvanceTimer s).pendingTimeouts = [] :=
    clearTimer_pendingTimeouts_of_inv s hinv
  have hs1 : handleAnswerClick opt s =
      { allQuestions := s.allQuestions, domains := s.domains,
        selectedDomains := s.selectedDomains,
        minQuestions := s.minQuestions,
        sessionQuestions := s.sessionQuestions,
        sessionStarted := s.sessionStarted,
        currentIndex := s.currentIndex,
        currentOptions := s.currentOptions,
        status := Status.correct, statusMessage := "Correct!",
        autoAdvanceTimeout := some s.nextTimeoutId, error := s.error,
        pendingTimeouts := [s.nextTimeoutId],
        nextTimeoutId := s.nextTimeoutId + 1 } := by
    unfold handleAnswerClick scheduleAutoAdvance
    rw [if_neg (by rw [hst]; simp), if_pos hc]
    dsimp only []
    rw [clearTimer_of_none _ (by simp)]
    ext <;> simp [hpend]
  have hfire : fireTimeout s.nextTimeoutId r1 r2 (handleAnswerClick opt s) =
      nextQuestion r1 r2
        { allQuestions := s.allQuestions, domains := s.domains,
          selectedDomains := s.selectedDomains,
          minQuestions := s.minQuestions,
          sessionQuestions := s.sessionQuestions,
          sessionStarted := s.sessionStarted,
          currentIndex := s.currentIndex,
          currentOptions := s.currentOptions,
          status := Status.correct, statusMessage := "Correct!",
          autoAdvanceTimeout := some s.nextTimeoutId, error := s.error,
          pendingTimeouts := [], nextTimeoutId := s.nextTimeoutId + 1 } := by
    rw [hs1]
    unfold fireTimeout
    rw [if_pos (by simp)]
    congr 1
    ext <;> simp
  obtain ⟨hp2, hadv2, hend2⟩ := nextQuestion_facts r1 r2
    { allQuestions := s.allQuestions, domains := s.domains,
      selectedDomains := s.selectedDomains,
      minQuestions := s.minQuestions,
      sessionQuestions := s.sessionQuestions,
      sessionStarted := s.sessionStarted,
      currentIndex := s.currentIndex,
      currentOptions := s.currentOptions,
      status := Status.correct, statusMessage := "Correct!",
      autoAdvanceTimeout := some s.nextTimeoutId, error := s.error,
      pendingTimeouts := [], nextTimeoutId := s.nextTimeoutId + 1 }
    (by simpa using hstarted)
  obtain ⟨hp3, -, -⟩ := nextQuestion_facts r3 r4
    { allQuestions := s.allQuestions, domains := s.domains,
      selectedDomains := s.selectedDomains,
      minQuestions := s.minQuestions,
      sessionQuestions := s.sessionQuestions,
      sessionStarted := s.sessionStarted,
      currentIndex := s.currentIndex,
      currentOptions := s.currentOptions,
      status := Status.correct, statusMessage := "Correct!",
      autoAdvanceTimeout := some s.nextTimeoutId, error := s.error,
      pendingTimeouts := [s.nextTimeoutId],
      nextTimeoutId := s.nextTimeoutId + 1 }
    (by simpa using hstarted)
  have hmpend : (nextQuestion r3 r4 (handleAnswerClick opt s)).pendingTimeouts
      = [] := by
    rw [hs1, hp3]
    simp [clearAutoAdvanceTimer]
  refine ⟨by rw [hs1], by rw [hs1], by rw [hs1]; rfl, ?_, ?_, hmpend, ?_⟩
  · intro hlt
    rw [hfire]
    exact hadv2 (by simpa using hlt)
  · intro hge
    rw [hfire]
    exact hend2 (by simpa using hge)
  · unfold fireTimeout
    rw [hmpend]
    rw [if_neg (by simp)]

theorem auto_advance_single_slot_witness :
    (handleAnswerClick { text := "a", correct := true }
      exState1).autoAdvanceTimeout = some exState1.nextTimeoutId ∧
    (handleAnswerClick { text := "a", correct := true }
      exState1).pendingTimeouts = [exState1.nextTimeoutId] ∧
    timerInv (handleAnswerClick { text := "a", correct := true } exState1) ∧
    (exState1.currentIndex < exState1.sessionQuestions.length - 1 →
      (fireTimeout exState1.nextTimeoutId (fun _ => 0) (fun _ => 0)
        (handleAnswerClick { text := "a", correct := true }
          exState1)).currentIndex = exState1.currentIndex + 1 ∧
      (fireTimeout exState1.nextTimeoutId (fun _ => 0) (fun _ => 0)
        (handleAnswerClick { text := "a", correct := true }
          exState1)).sessionStarted = true) ∧
    (¬ exState1.currentIndex < exState1.sessionQuestions.length - 1 →
      (fireTimeout exState1.nextTimeoutId (fun _ => 0) (fun _ => 0)
        (handleAnswerClick { text := "a", correct := true }
          exState1)).sessionStarted = false) ∧
    (nextQuestion (fun _ => 0) (fun _ => 0)
      (handleAnswerClick { text := "a", correct := true }
        exState1)).pendingTimeouts = [] ∧
    fireTimeout exState1.nextTimeoutId (fun _ => 0) (fun _ => 0)
        (nextQuestion (fun _ => 0) (fun _ => 0)
          (handleAnswerClick { text := "a", correct := true } exState1)) =
      nextQuestion (fun _ => 0) (fun _ => 0)
        (handleAnswerClick { text := "a", correct := true } exState1) :=
  auto_advance_single_slot (fun _ => 0) (fun _ => 0) (fun _ => 0)
    (fun _ => 0) { text := "a", correct := true } exState1
    (by decide) (by decide) (by decide) (by decide)

end SkSbQuiz
